import Mathlib

/-!
Verification of the resume-to-job-description matching engine of the ATS
repository against its natural-language specification.

The HTTP layer (`src/backend/src/routes/match.ts`) is embedded from the
source.  The matching engine itself (`src/backend/src/utils/matcher.ts` and
`src/backend/src/utils/resumeParser.ts`) is imported by the routes but its
source is not part of the available files, so those components are modelled
from the specification, as marked on each definition.
-/

namespace ATS

/-! ## KeywordExtractor (modelled from the spec) -/

/-- Split a character list into the (possibly empty) chunks delimited by the
characters satisfying `p`; mirrors JavaScript `String.prototype.split`. -/
def splitCharsOn (p : Char → Bool) : List Char → List (List Char)
  | [] => [[]]
  | c :: cs =>
    let r := splitCharsOn p cs
    if p c then [] :: r
    else
      match r with
      | [] => [[c]]
      | t :: ts => (c :: t) :: ts

/-- Split a string at the characters satisfying `p`. -/
def splitStr (p : Char → Bool) (s : String) : List String :=
  (splitCharsOn p s.toList).map String.mk

/-- Horizontal or vertical whitespace. -/
def isWsChar (c : Char) : Bool :=
  c = ' ' || c = '\t' || c = '\n' || c = '\r'

/-- Trim whitespace from both ends of a string. -/
def trimStr (s : String) : String :=
  String.mk (((s.toList.dropWhile isWsChar).reverse.dropWhile isWsChar).reverse)

/-- Modelled from the spec: the KeywordExtractor's tokenization step
(`src/backend/src/utils/resumeParser.ts` is not among the available sources).
Split on non-alphanumeric boundaries and lower-case every token. -/
def tokenizeRaw (s : String) : List String :=
  (splitStr (fun c => !c.isAlphanum) (String.mk (s.toList.map Char.toLower))).filter
    (fun t => t ≠ "")

/-- Modelled from the spec: the static stop-word list of the KeywordExtractor
(articles, pronouns, common verbs); a fixed configuration artifact. -/
def stopWords : List String :=
  ["the", "a", "an", "and", "or", "but", "of", "to", "in", "on", "at", "for",
   "with", "by", "from", "as", "is", "are", "was", "were", "be", "been",
   "being", "have", "has", "had", "do", "does", "did", "will", "would",
   "can", "could", "should", "this", "that", "these", "those", "i", "you",
   "he", "she", "it", "we", "they", "my", "your", "his", "her", "its",
   "our", "their"]

/-- Modelled from the spec: a token is significant when it has at least two
characters, is not purely numeric, and is not a stop word. -/
def isSignificantToken (t : String) : Bool :=
  decide (2 ≤ t.length) && !(t.toList.all Char.isDigit) && !(stopWords.contains t)

/-- Modelled from the spec: the significant token stream of a text. -/
def significantTokens (s : String) : List String :=
  (tokenizeRaw s).filter isSignificantToken

/-- Modelled from the spec: the static skills taxonomy, a mapping from a
canonical skill name to its synonym variants. -/
def skillsTaxonomy : List (String × List String) :=
  [("javascript", ["javascript", "js", "ecmascript"]),
   ("typescript", ["typescript", "ts"]),
   ("python", ["python"]),
   ("java", ["java"]),
   ("react", ["react", "reactjs"]),
   ("node.js", ["node", "nodejs"]),
   ("aws", ["aws"]),
   ("docker", ["docker"]),
   ("kubernetes", ["kubernetes", "k8s"]),
   ("sql", ["sql", "mysql", "postgresql", "postgres"]),
   ("mongodb", ["mongodb", "mongo"]),
   ("html", ["html", "html5"]),
   ("css", ["css", "css3"]),
   ("git", ["git", "github"]),
   ("c++", ["cpp"]),
   ("machine learning", ["tensorflow", "pytorch", "sklearn"])]

/-- Modelled from the spec: skill matching runs the significant token stream
against the taxonomy; any synonym match adds the canonical name. -/
def extractSkills (toks : List String) : List String :=
  (skillsTaxonomy.filter (fun entry => entry.2.any (fun syn => toks.contains syn))).map Prod.fst

/-- Number of occurrences of a token in the token stream. -/
def countOcc (toks : List String) (t : String) : Nat :=
  (toks.filter (fun x => x = t)).length

/-- Modelled from the spec: deduplication keeping the first occurrence of
each token (insertion order = relevance order). -/
def dedupKeepFirst : List String → List String
  | [] => []
  | x :: xs => x :: (dedupKeepFirst xs).filter (fun y => y ≠ x)

/-- Modelled from the spec: keyword ranking — deduplicate the significant
tokens and stably sort them by descending frequency; the stable sort breaks
frequency ties by first-occurrence position (earlier wins). -/
def rankKeywords (toks : List String) : List String :=
  (dedupKeepFirst toks).insertionSort (fun a b => countOcc toks b ≤ countOcc toks a)

/-- Result of the KeywordExtractor. -/
structure Extraction where
  skills : List String
  keywords : List String
deriving Repr, DecidableEq

/-- Modelled from the spec: `KeywordExtractor.extract(text) -> {skills, keywords}`
(`src/backend/src/utils/resumeParser.ts` is not among the available sources). -/
def extract (text : String) : Extraction :=
  let toks := significantTokens text
  { skills := extractSkills toks, keywords := rankKeywords toks }

/-! ## Classifier and Scorer (modelled from the spec) -/

/-- The three decision outcomes of the classifier. -/
inductive MatchStatus where
  | shortlisted
  | low_priority
  | rejected
deriving Repr, DecidableEq

/-- Modelled from the spec: the named shortlist threshold constant. -/
def SHORTLIST_THRESHOLD : ℤ := 80

/-- Modelled from the spec: the named low-priority threshold constant. -/
def LOW_PRIORITY_THRESHOLD : ℤ := 50

/-- Modelled from the spec: `Classifier.classify(matchPercentage) -> status`,
the fixed threshold policy (`src/backend/src/utils/matcher.ts` is not among
the available sources). -/
def classify (matchPercentage : ℤ) : MatchStatus :=
  if SHORTLIST_THRESHOLD ≤ matchPercentage then .shortlisted
  else if LOW_PRIORITY_THRESHOLD ≤ matchPercentage then .low_priority
  else .rejected

/-- Modelled from the spec: the skill-overlap weight (a tunable constant;
the weights must sum to 1 with the skill weight strictly larger). -/
def W_SKILL : ℚ := 3 / 5

/-- Modelled from the spec: the keyword-overlap weight. -/
def W_KEYWORD : ℚ := 2 / 5

/-- Whether the resume side contains a given job keyword, either among the
resume's extracted keywords or among its canonical skills. -/
def resumeHas (resumeKeywords resumeSkills : List String) (k : String) : Bool :=
  resumeKeywords.contains k || resumeSkills.contains k

/-- Modelled from the spec: the number of canonical job skills also present
in the resume's skill set, the size of `resumeSkills ∩ jobSkills` realized on
the job side. -/
def skillOverlapCount (resumeSkills jobSkills : List String) : Nat :=
  (jobSkills.filter (fun s => resumeSkills.contains s)).length

/-- Modelled from the spec: an overlap fraction `num / max(1, den)`, the
denominator floored at one so an empty reference set yields zero instead of a
division by zero. -/
def overlapFrac (num den : Nat) : ℚ :=
  (num : ℚ) / ((max 1 den : ℕ) : ℚ)

/-- Output of the Scorer. -/
structure ScoreOutput where
  matchScore : ℚ
  matchPercentage : ℤ
  matchedKeywords : List String
  missingKeywords : List String
deriving Repr, DecidableEq

/-- Modelled from the spec: the Scorer
(`src/backend/src/utils/matcher.ts` is not among the available sources).
The job description runs through the same extractor; the matched keywords are
the job keywords present on the resume side in job-keyword order; the score is
the weighted sum of the skill-overlap and keyword-overlap fractions; the
percentage is the rounded score times 100, clamped to 0..100. -/
def score (resumeKeywords resumeSkills : List String)
    (resumeText jobDescriptionText : String) : ScoreOutput :=
  let _ := resumeText
  let jd := extract jobDescriptionText
  let matched := jd.keywords.filter (resumeHas resumeKeywords resumeSkills)
  let missing := jd.keywords.filter (fun k => !(resumeHas resumeKeywords resumeSkills k))
  let skillOverlap : ℚ := overlapFrac (skillOverlapCount resumeSkills jd.skills) jd.skills.length
  let keywordOverlap : ℚ := overlapFrac matched.length jd.keywords.length
  let ms := W_SKILL * skillOverlap + W_KEYWORD * keywordOverlap
  { matchScore := ms,
    matchPercentage := min 100 (max 0 (round (ms * 100))),
    matchedKeywords := matched,
    missingKeywords := missing }

/-- The result of the match engine facade. -/
structure MatchResult where
  matchScore : ℚ
  matchPercentage : ℤ
  status : MatchStatus
  matchedKeywords : List String
  missingKeywords : List String
deriving Repr, DecidableEq

/-- Modelled from the spec: the MatchEngine facade `matchResumeToJD`
(`src/backend/src/utils/matcher.ts` is not among the available sources),
composing the Scorer with the Classifier. -/
def matchResumeToJD (resumeKeywords resumeSkills : List String)
    (resumeText jobDescriptionText : String) : MatchResult :=
  let s := score resumeKeywords resumeSkills resumeText jobDescriptionText
  { matchScore := s.matchScore,
    matchPercentage := s.matchPercentage,
    status := classify s.matchPercentage,
    matchedKeywords := s.matchedKeywords,
    missingKeywords := s.missingKeywords }

/-! ## TextNormalizer (modelled from the spec) -/

/-- Modelled from the spec: collapse line-ending variants (`\r\n` and bare
`\r`) to a single `\n`. -/
def normalizeNewlineChars : List Char → List Char
  | [] => []
  | '\r' :: '\n' :: cs => '\n' :: normalizeNewlineChars cs
  | '\r' :: cs => '\n' :: normalizeNewlineChars cs
  | c :: cs => c :: normalizeNewlineChars cs

/-- Modelled from the spec: collapse runs of horizontal whitespace to one
space, tracking the previously emitted character. -/
def squashRunsAux (prev : Option Char) : List Char → List Char
  | [] => []
  | c :: cs =>
    let c1 := if c = '\t' then ' ' else c
    if c1 = ' ' && prev = some ' ' then squashRunsAux prev cs
    else c1 :: squashRunsAux (some c1) cs

/-- Modelled from the spec: collapse three or more consecutive newlines to
exactly two, preserving paragraph breaks; `run` counts the newlines just
emitted. -/
def capNewlinesAux (run : Nat) : List Char → List Char
  | [] => []
  | c :: cs =>
    if c = '\n' then
      if 2 ≤ run then capNewlinesAux run cs
      else c :: capNewlinesAux (run + 1) cs
    else c :: capNewlinesAux 0 cs

/-- Modelled from the spec: the TextNormalizer
(`src/backend/src/utils/resumeParser.ts` is not among the available sources):
normalize line endings, collapse horizontal whitespace runs, cap newline runs
at two, and trim. -/
def normalizeText (s : String) : String :=
  trimStr (String.mk (capNewlinesAux 0 (squashRunsAux none (normalizeNewlineChars s.toList))))

/-! ## SectionSegmenter (modelled from the spec) -/

/-- A work-experience entry of a parsed resume. -/
structure ExperienceEntry where
  company : String
  position : String
  duration : String
  description : String
deriving Repr, DecidableEq

/-- An education entry of a parsed resume. -/
structure EducationEntry where
  degree : String
  institution : String
  year : String
  field : String
deriving Repr, DecidableEq

/-- Result of the SectionSegmenter. -/
structure Segmented where
  experience : List ExperienceEntry
  education : List EducationEntry
  certificates : List String
  email : String
deriving Repr, DecidableEq

/-- Modelled from the spec: whether a token matches a standard email address
shape (a nonempty user part, and a domain with a dot separating nonempty
labels). -/
def isEmailToken (t : String) : Bool :=
  match splitStr (fun c => c = '@') t with
  | [user, domain] =>
      user ≠ "" && decide (2 ≤ (splitStr (fun c => c = '.') domain).length) &&
        (splitStr (fun c => c = '.') domain).all (fun p => p ≠ "")
  | _ => false

/-- Modelled from the spec: the first token anywhere in the text matching the
email pattern, or the empty string. -/
def findEmail (text : String) : String :=
  ((splitStr isWsChar text).find? isEmailToken).getD ""

/-- The structural category a line of the resume is currently attributed to. -/
inductive ZoneTag where
  | noZone
  | experienceZone
  | educationZone
  | certificatesZone
deriving Repr, DecidableEq

/-- Modelled from the spec: drop trailing punctuation a heading line may
carry before comparing it with the heading markers. -/
def stripPunct (s : String) : String :=
  String.mk (s.toList.filter (fun c => c ≠ ':' && c ≠ '.' && c ≠ '-'))

/-- Modelled from the spec: case-insensitive heading markers, lines
consisting solely of a section name optionally followed by punctuation. -/
def headingTag (line : String) : Option ZoneTag :=
  let t := String.mk ((trimStr (stripPunct line)).toList.map Char.toLower)
  if t = "experience" || t = "work experience" || t = "work history" ||
      t = "employment history" then some .experienceZone
  else if t = "education" then some .educationZone
  else if t = "certifications" || t = "certificates" then some .certificatesZone
  else none

/-- Accumulator splitting the document's lines into zone bodies. -/
structure ZoneAcc where
  current : ZoneTag
  experienceLines : List String
  educationLines : List String
  certificateLines : List String
deriving Repr, DecidableEq

/-- Modelled from the spec: one step of zone splitting — a recognized heading
switches the current zone, any other line belongs to the current zone's body. -/
def zoneStep (acc : ZoneAcc) (line : String) : ZoneAcc :=
  match headingTag line with
  | some z => { acc with current := z }
  | none =>
    match acc.current with
    | .noZone => acc
    | .experienceZone => { acc with experienceLines := acc.experienceLines ++ [line] }
    | .educationZone => { acc with educationLines := acc.educationLines ++ [line] }
    | .certificatesZone => { acc with certificateLines := acc.certificateLines ++ [line] }

/-- Modelled from the spec: split the document into zone bodies delimited by
recognized headings. -/
def splitZones (text : String) : ZoneAcc :=
  (splitStr (fun c => c = '\n') text).foldl zoneStep ⟨.noZone, [], [], []⟩

/-- Modelled from the spec: blank-line-separated blocks of a zone body. -/
def blocks (lines : List String) : List (List String) :=
  let r := lines.foldl
    (fun (acc : List (List String) × List String) (line : String) =>
      if trimStr line = "" then (if acc.2 = [] then acc.1 else acc.1 ++ [acc.2], [])
      else (acc.1, acc.2 ++ [line]))
    ([], [])
  if r.2 = [] then r.1 else r.1 ++ [r.2]

/-- Modelled from the spec: the first four-digit year-like token of a block,
or the empty string. -/
def firstYearToken (b : List String) : String :=
  (((b.map tokenizeRaw).flatten).find?
    (fun t => decide (t.length = 4) && t.toList.all Char.isDigit)).getD ""

/-- Modelled from the spec: a best-effort experience entry from one block;
missing sub-fields are empty strings. -/
def mkExperienceEntry (b : List String) : ExperienceEntry :=
  { company := trimStr (b.headD ""),
    position := trimStr ((b.drop 1).headD ""),
    duration := firstYearToken b,
    description := String.intercalate " " (b.drop 2) }

/-- Modelled from the spec: a best-effort education entry from one block;
missing sub-fields are empty strings. -/
def mkEducationEntry (b : List String) : EducationEntry :=
  { degree := trimStr (b.headD ""),
    institution := trimStr ((b.drop 1).headD ""),
    year := firstYearToken b,
    field := "" }

/-- Modelled from the spec: `SectionSegmenter.segment(text)`
(`src/backend/src/utils/resumeParser.ts` is not among the available sources). -/
def segment (text : String) : Segmented :=
  let z := splitZones text
  { experience := (blocks z.experienceLines).map mkExperienceEntry,
    education := (blocks z.educationLines).map mkEducationEntry,
    certificates := (z.certificateLines.map trimStr).filter (fun l => l ≠ ""),
    email := findEmail text }

/-! ## ResumeParser (modelled from the spec) -/

/-- A parsed resume: the structured candidate profile. -/
structure ParsedResume where
  skills : List String
  keywords : List String
  email : String
  experience : List ExperienceEntry
  education : List EducationEntry
  certificates : List String
deriving Repr, DecidableEq

/-- Modelled from the spec: `ResumeParser.parse(resumeText)` — normalize,
then run the extractor and the segmenter independently on the normalized text
(`src/backend/src/utils/resumeParser.ts` is not among the available sources). -/
def parseResume (resumeText : String) : ParsedResume :=
  let t := normalizeText resumeText
  let ex := extract t
  let seg := segment t
  { skills := ex.skills, keywords := ex.keywords, email := seg.email,
    experience := seg.experience, education := seg.education,
    certificates := seg.certificates }

/-! ## HTTP routes (embedded from `src/backend/src/routes/match.ts`) -/

/-- Status of an application record (`src/unnamed/part_003`). -/
inductive ApplicationStatus where
  | applied
  | interview
  | offer
  | rejected
deriving Repr, DecidableEq

/-- The application-status mapping repeated in the three routes of
`src/backend/src/routes/match.ts` (lines 220-248, 380-409, 516-545):
a shortlisted resume moves the linked application to `interview`, a rejected
resume moves it to `rejected`, and a low-priority resume leaves the
application's status untouched (`applicationStatus` stays `undefined`). -/
def applicationStatusFor : MatchStatus → Option ApplicationStatus
  | .shortlisted => some .interview
  | .rejected => some .rejected
  | .low_priority => none

/-- The linked application's status after the conditional
`Application.findOneAndUpdate` call succeeds. -/
def updatedApplicationStatus (m : MatchStatus) (current : ApplicationStatus) :
    ApplicationStatus :=
  match applicationStatusFor m with
  | some s => s
  | none => current

/-- Body of the JSON response of the single-match endpoint
(`match.ts` lines 78-86). -/
structure MatchResponse where
  score : ℚ
  matchPercentage : ℤ
  decision : MatchStatus
  threshold : ℤ
  matchedKeywords : List String
  missingKeywords : List String
  parsedResume : ParsedResume
deriving Repr, DecidableEq

/-- Outcome of the single-match endpoint. -/
inductive SingleMatchResult where
  | invalidInput (message : String)
  | ok (response : MatchResponse)
deriving Repr, DecidableEq

/-- The successful response of the single-match endpoint
(`match.ts` lines 65-86). -/
def singleMatchResponse (resumeText jobDescription : String) : MatchResponse :=
  let parsedResume := parseResume resumeText
  let matchResult := matchResumeToJD parsedResume.keywords parsedResume.skills
    resumeText jobDescription
  { score := matchResult.matchScore,
    matchPercentage := matchResult.matchPercentage,
    decision := matchResult.status,
    threshold := 80,
    matchedKeywords := matchResult.matchedKeywords,
    missingKeywords := matchResult.missingKeywords,
    parsedResume := parsedResume }

/-- The single-match endpoint `router.post("/")` (`match.ts` lines 59-87):
`payloadSchema` requires both `resumeText` and `jobDescription` to have at
least 10 characters; on failure it answers 400 before any parsing or
matching, otherwise it parses, matches and answers with the result. -/
def singleMatchRoute (resumeText jobDescription : String) : SingleMatchResult :=
  if resumeText.length < 10 || jobDescription.length < 10 then
    .invalidInput "Invalid input"
  else
    .ok (singleMatchResponse resumeText jobDescription)

/-- The fields of a stored `Resume` document that the match routes read and
write (`src/backend/src/models/Resume.ts` callers in `match.ts`). -/
structure StoredResume where
  fileName : String
  originalText : String
  skills : List String
  keywords : List String
  email : String
  matchScore : ℚ
  matchPercentage : ℤ
  status : MatchStatus
  matchedKeywords : List String
  missingKeywords : List String
deriving Repr, DecidableEq

/-- A per-item entry of a bulk response: either a successful result row or a
per-item error row carrying the file name (`match.ts` lines 250-266 and
411-427). -/
inductive ItemEntry where
  | ok (fileName : String) (matchPercentage : ℤ) (status : MatchStatus)
      (email : String) (skills matchedKeywords missingKeywords : List String)
  | itemError (fileName : String) (message : String)
deriving Repr, DecidableEq

/-- Everything one iteration of a batch loop produces: the response entry,
the `Resume` document saved for the item (when any), and the linked
application's status afterwards (when a linked application exists). -/
structure ItemOutcome where
  entry : ItemEntry
  saved : Option StoredResume
  applicationAfter : Option ApplicationStatus
deriving Repr, DecidableEq

/-- One uploaded file of the bulk endpoint, with the outcomes of the
external effects its processing performs: the text extraction
(`readFileAsText`, `match.ts` lines 30-56), any database failure thrown
while looking up or saving the `Resume` document, the linked application's
current status when one is found, and whether the
`Application.findOneAndUpdate` call throws. -/
structure BulkFileInput where
  originalname : String
  readResult : Except String String
  dbFailure : Option String
  linkedApplication : Option ApplicationStatus
  appUpdateFails : Bool
deriving Repr

/-- The `Resume` document the bulk endpoint persists for a successfully
processed file (`match.ts` lines 344-377): full, untruncated keyword lists. -/
def bulkSavedResume (jobDescription fileName resumeText : String) : StoredResume :=
  let parsedResume := parseResume resumeText
  let m := matchResumeToJD parsedResume.keywords parsedResume.skills
    resumeText jobDescription
  { fileName := fileName,
    originalText := resumeText,
    skills := parsedResume.skills,
    keywords := parsedResume.keywords,
    email := parsedResume.email,
    matchScore := m.matchScore,
    matchPercentage := m.matchPercentage,
    status := m.status,
    matchedKeywords := m.matchedKeywords,
    missingKeywords := m.missingKeywords }

/-- One iteration of the bulk loop (`match.ts` lines 298-428): the whole
body is wrapped in a try, so a failed text extraction or a thrown database
error yields a per-item error entry with the file name and the loop
continues; the application update sits in its own inner try whose failure is
only logged; the pushed entry slices both keyword lists to their first 10
elements while the saved document keeps the full lists. -/
def processBulkFile (jobDescription : String) (f : BulkFileInput) : ItemOutcome :=
  match f.readResult with
  | .error msg =>
      { entry := .itemError f.originalname msg, saved := none,
        applicationAfter := f.linkedApplication }
  | .ok resumeText =>
    match f.dbFailure with
    | some msg =>
        { entry := .itemError f.originalname msg, saved := none,
          applicationAfter := f.linkedApplication }
    | none =>
      let parsedResume := parseResume resumeText
      let m := matchResumeToJD parsedResume.keywords parsedResume.skills
        resumeText jobDescription
      { entry := .ok f.originalname m.matchPercentage m.status parsedResume.email
          parsedResume.skills (m.matchedKeywords.take 10) (m.missingKeywords.take 10),
        saved := some (bulkSavedResume jobDescription f.originalname resumeText),
        applicationAfter := f.linkedApplication.map (fun cur =>
          if f.appUpdateFails then cur else updatedApplicationStatus m.status cur) }

/-- Outcome of the bulk endpoint. -/
inductive BulkResponse where
  | noFiles (message : String)
  | invalidInput (message : String)
  | ok (processed : Nat) (results : List ItemOutcome)
deriving Repr, DecidableEq

/-- The bulk endpoint `router.post("/bulk")` (`match.ts` lines 280-438):
reject when no files were uploaded, then validate the body against
`bulkSchema` (`jobDescription` at least 10 characters, `jobDescriptionId`
nonempty), then process every file in order. -/
def bulkRoute (jobDescription jobDescriptionId : String)
    (files : List BulkFileInput) : BulkResponse :=
  if files.isEmpty then .noFiles "No files uploaded"
  else if jobDescription.length < 10 || jobDescriptionId.length < 1 then
    .invalidInput "Invalid input"
  else
    let results := files.map (processBulkFile jobDescription)
    .ok results.length results

/-- One stored-resume item of the use-stored-resumes endpoint, with the
outcomes of its external effects: a database failure thrown while saving the
re-matched document, the linked application's current status, and whether the
application update throws. -/
structure StoredItemInput where
  resume : StoredResume
  saveFailure : Option String
  linkedApplication : Option ApplicationStatus
  appUpdateFails : Bool
deriving Repr, DecidableEq

/-- One iteration of the use-stored-resumes loop (`match.ts` lines 199-266):
re-match the stored text, persist the full match lists on the document, run
the guarded application update, and push an entry with the keyword lists
sliced to 10; a thrown save error yields a per-item error entry instead and
the loop continues. -/
def processStoredResume (jobDescription : String) (it : StoredItemInput) : ItemOutcome :=
  let r := it.resume
  let m := matchResumeToJD r.keywords r.skills r.originalText jobDescription
  match it.saveFailure with
  | some msg =>
      { entry := .itemError r.fileName msg, saved := none,
        applicationAfter := it.linkedApplication }
  | none =>
      { entry := .ok r.fileName m.matchPercentage m.status r.email r.skills
          (m.matchedKeywords.take 10) (m.missingKeywords.take 10),
        saved := some { r with
          matchScore := m.matchScore,
          matchPercentage := m.matchPercentage,
          status := m.status,
          matchedKeywords := m.matchedKeywords,
          missingKeywords := m.missingKeywords },
        applicationAfter := it.linkedApplication.map (fun cur =>
          if it.appUpdateFails then cur else updatedApplicationStatus m.status cur) }

/-- Decoding of the `status` string of the manual status patch
(`match.ts` line 502 checks membership in the three literals). -/
def statusFromString (s : String) : Option MatchStatus :=
  if s = "shortlisted" then some .shortlisted
  else if s = "rejected" then some .rejected
  else if s = "low_priority" then some .low_priority
  else none

/-- Outcome of the manual status patch endpoint. -/
inductive PatchResponse where
  | invalidStatus (message : String)
  | notFound (message : String)
  | ok (resume : StoredResume) (applicationAfter : Option ApplicationStatus)
deriving Repr, DecidableEq

/-- The manual status patch `router.patch("/resume/:id/status")`
(`match.ts` lines 496-551): validate the requested status string, update the
stored resume's status, and run the same guarded application update keyed on
the requested status; a failure of that update is only logged and the
patched resume is still returned. -/
def patchResumeStatusRoute (requestedStatus : String) (stored : Option StoredResume)
    (linkedApplication : Option ApplicationStatus) (appUpdateFails : Bool) :
    PatchResponse :=
  match statusFromString requestedStatus with
  | none => .invalidStatus "Invalid status"
  | some st =>
    match stored with
    | none => .notFound "Resume not found"
    | some r =>
        .ok { r with status := st }
          (linkedApplication.map (fun cur =>
            if appUpdateFails then cur else updatedApplicationStatus st cur))

/-! ## Basic lemmas about the extractor -/

theorem mem_dedupKeepFirst (a : String) (l : List String) :
    a ∈ dedupKeepFirst l ↔ a ∈ l := by
  induction l with
  | nil => simp [dedupKeepFirst]
  | cons x xs ih =>
      by_cases hax : a = x
      · subst hax; simp [dedupKeepFirst]
      · simp [dedupKeepFirst, List.mem_filter, hax, ih]

theorem nodup_dedupKeepFirst (l : List String) : (dedupKeepFirst l).Nodup := by
  induction l with
  | nil => simp [dedupKeepFirst]
  | cons x xs ih =>
      simp only [dedupKeepFirst, List.nodup_cons]
      refine ⟨fun hx => ?_, ih.filter _⟩
      have h := (List.mem_filter.mp hx).2
      simp at h

theorem dedupKeepFirst_eq_nil {l : List String} : dedupKeepFirst l = [] ↔ l = [] := by
  cases l <;> simp [dedupKeepFirst]

theorem extract_keywords_perm (t : String) :
    (extract t).keywords.Perm (dedupKeepFirst (significantTokens t)) :=
  List.perm_insertionSort _ _

theorem extract_keywords_nodup (t : String) : (extract t).keywords.Nodup :=
  ((extract_keywords_perm t).nodup_iff).mpr (nodup_dedupKeepFirst _)

theorem significantTokens_eq_nil_of_keywords {t : String}
    (h : (extract t).keywords = []) : significantTokens t = [] := by
  have hp := (extract_keywords_perm t).symm
  rw [h] at hp
  exact dedupKeepFirst_eq_nil.mp hp.eq_nil

theorem extract_skills_of_no_tokens {t : String} (h : significantTokens t = []) :
    (extract t).skills = [] := by
  show extractSkills (significantTokens t) = []
  rw [h]
  decide

/-! ## Lemmas about rounding and overlap fractions -/

theorem round_rat_mono {x y : ℚ} (h : x ≤ y) : round x ≤ round y := by
  rw [round_eq, round_eq]
  exact Int.floor_le_floor (by linarith)

theorem round_rat_nonneg {x : ℚ} (h : 0 ≤ x) : 0 ≤ round x := by
  have h0 := round_rat_mono h
  simpa using h0

theorem round_rat_le_hundred {x : ℚ} (h : x ≤ 100) : round x ≤ 100 := by
  have h0 := round_rat_mono h
  have h1 : round (((100 : ℤ) : ℚ)) = 100 := round_intCast 100
  have h2 : (((100 : ℤ) : ℚ)) = (100 : ℚ) := by norm_cast
  rw [h2] at h1
  rw [h1] at h0
  exact h0

theorem maxOne_cast_pos (d : Nat) : (0 : ℚ) < ((max 1 d : ℕ) : ℚ) := by
  have : 0 < max 1 d := lt_of_lt_of_le Nat.zero_lt_one (le_max_left 1 d)
  exact_mod_cast this

theorem overlapFrac_nonneg (n d : Nat) : 0 ≤ overlapFrac n d := by
  unfold overlapFrac
  exact div_nonneg (by positivity) (le_of_lt (maxOne_cast_pos d))

theorem overlapFrac_le_one {n d : Nat} (h : n ≤ d) : overlapFrac n d ≤ 1 := by
  unfold overlapFrac
  rw [div_le_one (maxOne_cast_pos d)]
  exact_mod_cast le_trans h (le_max_right 1 d)

theorem overlapFrac_mono {n m : Nat} (d : Nat) (h : n ≤ m) :
    overlapFrac n d ≤ overlapFrac m d := by
  unfold overlapFrac
  exact (div_le_div_iff_of_pos_right (maxOne_cast_pos d)).mpr (by exact_mod_cast h)

theorem overlapFrac_zero (d : Nat) : overlapFrac 0 d = 0 := by
  unfold overlapFrac
  simp

/-! ## Projection lemmas for the Scorer and the MatchEngine -/

theorem score_matchedKeywords (rk rs : List String) (rt jdt : String) :
    (score rk rs rt jdt).matchedKeywords =
      (extract jdt).keywords.filter (resumeHas rk rs) := rfl

theorem score_missingKeywords (rk rs : List String) (rt jdt : String) :
    (score rk rs rt jdt).missingKeywords =
      (extract jdt).keywords.filter (fun k => !(resumeHas rk rs k)) := rfl

theorem score_matchScore (rk rs : List String) (rt jdt : String) :
    (score rk rs rt jdt).matchScore =
      W_SKILL * overlapFrac (skillOverlapCount rs (extract jdt).skills)
          (extract jdt).skills.length +
        W_KEYWORD * overlapFrac ((extract jdt).keywords.filter (resumeHas rk rs)).length
          (extract jdt).keywords.length := rfl

theorem score_matchPercentage (rk rs : List String) (rt jdt : String) :
    (score rk rs rt jdt).matchPercentage =
      min 100 (max 0 (round ((score rk rs rt jdt).matchScore * 100))) := rfl

theorem match_eq_score_pct (rk rs : List String) (rt jdt : String) :
    (matchResumeToJD rk rs rt jdt).matchPercentage =
      (score rk rs rt jdt).matchPercentage := rfl

theorem match_matchedKeywords (rk rs : List String) (rt jdt : String) :
    (matchResumeToJD rk rs rt jdt).matchedKeywords =
      (score rk rs rt jdt).matchedKeywords := rfl

theorem match_missingKeywords (rk rs : List String) (rt jdt : String) :
    (matchResumeToJD rk rs rt jdt).missingKeywords =
      (score rk rs rt jdt).missingKeywords := rfl

theorem match_status (rk rs : List String) (rt jdt : String) :
    (matchResumeToJD rk rs rt jdt).status =
      classify (score rk rs rt jdt).matchPercentage := rfl

theorem score_matchScore_nonneg (rk rs : List String) (rt jdt : String) :
    0 ≤ (score rk rs rt jdt).matchScore := by
  rw [score_matchScore]
  have h1 := overlapFrac_nonneg (skillOverlapCount rs (extract jdt).skills)
    (extract jdt).skills.length
  have h2 := overlapFrac_nonneg ((extract jdt).keywords.filter (resumeHas rk rs)).length
    (extract jdt).keywords.length
  show (3 / 5 : ℚ) * _ + (2 / 5 : ℚ) * _ ≥ 0
  nlinarith

theorem score_matchScore_le_one (rk rs : List String) (rt jdt : String) :
    (score rk rs rt jdt).matchScore ≤ 1 := by
  rw [score_matchScore]
  have h1 := overlapFrac_le_one (List.length_filter_le
    (fun s => rs.contains s) (extract jdt).skills)
  have h2 := overlapFrac_le_one (List.length_filter_le
    (resumeHas rk rs) (extract jdt).keywords)
  show (3 / 5 : ℚ) * _ + (2 / 5 : ℚ) * _ ≤ 1
  have h3 := overlapFrac_nonneg (skillOverlapCount rs (extract jdt).skills)
    (extract jdt).skills.length
  have h4 := overlapFrac_nonneg ((extract jdt).keywords.filter (resumeHas rk rs)).length
    (extract jdt).keywords.length
  unfold skillOverlapCount
  nlinarith

theorem score_pct_nonneg (rk rs : List String) (rt jdt : String) :
    0 ≤ (score rk rs rt jdt).matchPercentage := by
  rw [score_matchPercentage]
  exact le_min (by norm_num) (le_max_left 0 _)

theorem score_pct_le_hundred (rk rs : List String) (rt jdt : String) :
    (score rk rs rt jdt).matchPercentage ≤ 100 :=
  min_le_left _ _

theorem score_pct_eq_round (rk rs : List String) (rt jdt : String) :
    (score rk rs rt jdt).matchPercentage =
      round ((score rk rs rt jdt).matchScore * 100) := by
  rw [score_matchPercentage]
  have h0 : (0 : ℚ) ≤ (score rk rs rt jdt).matchScore * 100 := by
    have := score_matchScore_nonneg rk rs rt jdt
    nlinarith
  have h1 : (score rk rs rt jdt).matchScore * 100 ≤ 100 := by
    have := score_matchScore_le_one rk rs rt jdt
    nlinarith
  rw [max_eq_right (round_rat_nonneg h0), min_eq_right (round_rat_le_hundred h1)]

/-! ## Claim theorems -/

/-- C1: the classifier maps a match percentage to a status by the fixed
thresholds — at least 80 is shortlisted, 50 to 79 is low priority, below 50
is rejected — with the stated boundary values 80, 79, 50 and 49, and the
status of a match result is computed from its match percentage alone. -/
theorem classifier_threshold_policy (p : ℤ) :
    ((80 ≤ p → classify p = .shortlisted) ∧
      (50 ≤ p → p < 80 → classify p = .low_priority) ∧
      (p < 50 → classify p = .rejected)) ∧
    classify 80 = .shortlisted ∧ classify 79 = .low_priority ∧
    classify 50 = .low_priority ∧ classify 49 = .rejected ∧
    ∀ rk rs rt jdt, (matchResumeToJD rk rs rt jdt).status =
      classify (matchResumeToJD rk rs rt jdt).matchPercentage := by
  refine ⟨⟨fun h => ?_, fun h1 h2 => ?_, fun h => ?_⟩,
    by decide, by decide, by decide, by decide, fun rk rs rt jdt => rfl⟩
  · simp only [classify, SHORTLIST_THRESHOLD]
    rw [if_pos h]
  · simp only [classify, SHORTLIST_THRESHOLD, LOW_PRIORITY_THRESHOLD]
    rw [if_neg (by omega), if_pos h1]
  · simp only [classify, SHORTLIST_THRESHOLD, LOW_PRIORITY_THRESHOLD]
    rw [if_neg (by omega), if_neg (by omega)]

/-- Witness for C1 at the shortlist boundary. -/
theorem classifier_threshold_policy_witness : classify 80 = MatchStatus.shortlisted :=
  (classifier_threshold_policy 80).1.1 (by decide)

/-- C2: the matched and missing keyword lists partition the job
description's extracted keyword set exactly — matched keywords are the job
keywords present among the resume's keywords or skills, missing keywords are
the rest, their union is the job keyword set, neither has duplicates, they
are disjoint, and both preserve the job keyword order (they are sublists). -/
theorem matched_missing_partition (rk rs : List String) (rt jdt : String) :
    (matchResumeToJD rk rs rt jdt).matchedKeywords =
        (extract jdt).keywords.filter (resumeHas rk rs) ∧
    (matchResumeToJD rk rs rt jdt).missingKeywords =
        (extract jdt).keywords.filter (fun k => !(resumeHas rk rs k)) ∧
    (∀ k, k ∈ (extract jdt).keywords ↔
        k ∈ (matchResumeToJD rk rs rt jdt).matchedKeywords ∨
          k ∈ (matchResumeToJD rk rs rt jdt).missingKeywords) ∧
    (matchResumeToJD rk rs rt jdt).matchedKeywords.Nodup ∧
    (matchResumeToJD rk rs rt jdt).missingKeywords.Nodup ∧
    (∀ k, k ∈ (matchResumeToJD rk rs rt jdt).matchedKeywords →
        k ∉ (matchResumeToJD rk rs rt jdt).missingKeywords) ∧
    (matchResumeToJD rk rs rt jdt).matchedKeywords.Sublist (extract jdt).keywords ∧
    (matchResumeToJD rk rs rt jdt).missingKeywords.Sublist (extract jdt).keywords := by
  refine ⟨rfl, rfl, fun k => ?_, ?_, ?_, fun k hk hk2 => ?_, ?_, ?_⟩
  · show k ∈ (extract jdt).keywords ↔
      k ∈ (extract jdt).keywords.filter (resumeHas rk rs) ∨
        k ∈ (extract jdt).keywords.filter (fun k => !(resumeHas rk rs k))
    simp only [List.mem_filter]
    by_cases h : resumeHas rk rs k <;> simp [h]
  · exact (extract_keywords_nodup jdt).filter _
  · exact (extract_keywords_nodup jdt).filter _
  · have h1 := (List.mem_filter.mp hk).2
    have h2 := (List.mem_filter.mp hk2).2
    rw [h1] at h2
    simp at h2
  · exact List.filter_sublist _
  · exact List.filter_sublist _

/-- Witness for C2: on a concrete input, a job keyword lands in the matched
or the missing list. -/
theorem matched_missing_partition_witness :
    "docker" ∈ (matchResumeToJD ["python", "aws", "experience"] ["python", "aws"] "r"
        "Looking for Python developer with AWS and Docker skills").matchedKeywords ∨
      "docker" ∈ (matchResumeToJD ["python", "aws", "experience"] ["python", "aws"] "r"
        "Looking for Python developer with AWS and Docker skills").missingKeywords :=
  ((matched_missing_partition ["python", "aws", "experience"] ["python", "aws"] "r"
    "Looking for Python developer with AWS and Docker skills").2.2.1 "docker").mp (by decide)

/-- C3: the scorer's weighted-sum formula — the match score is the
skill-overlap fraction weighted by `W_SKILL` plus the keyword-overlap
fraction weighted by `W_KEYWORD`, both with denominators floored at one; the
weights sum to 1 with the skill weight strictly larger; the score lies in
[0,1]; and the match percentage is the rounded score times 100, an integer
in [0,100]. -/
theorem scorer_weighted_formula (rk rs : List String) (rt jdt : String) :
    (score rk rs rt jdt).matchScore =
        W_SKILL * overlapFrac (skillOverlapCount rs (extract jdt).skills)
            (extract jdt).skills.length +
          W_KEYWORD * overlapFrac (score rk rs rt jdt).matchedKeywords.length
            (extract jdt).keywords.length ∧
    W_SKILL + W_KEYWORD = 1 ∧ W_KEYWORD < W_SKILL ∧
    0 ≤ (score rk rs rt jdt).matchScore ∧ (score rk rs rt jdt).matchScore ≤ 1 ∧
    (score rk rs rt jdt).matchPercentage =
        round ((score rk rs rt jdt).matchScore * 100) ∧
    0 ≤ (score rk rs rt jdt).matchPercentage ∧
    (score rk rs rt jdt).matchPercentage ≤ 100 ∧
    (matchResumeToJD rk rs rt jdt).matchPercentage =
      (score rk rs rt jdt).matchPercentage :=
  ⟨rfl, by norm_num [W_SKILL, W_KEYWORD], by norm_num [W_SKILL, W_KEYWORD],
    score_matchScore_nonneg rk rs rt jdt, score_matchScore_le_one rk rs rt jdt,
    score_pct_eq_round rk rs rt jdt, score_pct_nonneg rk rs rt jdt,
    score_pct_le_hundred rk rs rt jdt, rfl⟩

/-- C7: degenerate inputs — an empty extracted job keyword set forces a zero
percentage, rejected status and empty matched list; empty resume keyword and
skill sets force an empty matched list and a zero percentage. -/
theorem degenerate_inputs_zero (rk rs : List String) (rt jdt : String) :
    ((extract jdt).keywords = [] →
      (matchResumeToJD rk rs rt jdt).matchPercentage = 0 ∧
      (matchResumeToJD rk rs rt jdt).status = .rejected ∧
      (matchResumeToJD rk rs rt jdt).matchedKeywords = []) ∧
    (rk = [] → rs = [] →
      (matchResumeToJD rk rs rt jdt).matchedKeywords = [] ∧
      (matchResumeToJD rk rs rt jdt).matchPercentage = 0) := by
  constructor
  · intro h
    have hsk : (extract jdt).skills = [] :=
      extract_skills_of_no_tokens (significantTokens_eq_nil_of_keywords h)
    have hms : (score rk rs rt jdt).matchScore = 0 := by
      rw [score_matchScore, h, hsk]
      simp [skillOverlapCount, overlapFrac_zero]
    have hpct : (score rk rs rt jdt).matchPercentage = 0 := by
      rw [score_matchPercentage, hms]
      norm_num
    refine ⟨hpct, ?_, ?_⟩
    · rw [match_status, hpct]
      decide
    · rw [match_matchedKeywords, score_matchedKeywords, h]
      rfl
  · intro hk hs
    subst hk; subst hs
    have hfalse : ∀ k, resumeHas [] [] k = false := fun k => rfl
    have hmk : (matchResumeToJD [] [] rt jdt).matchedKeywords = [] := by
      rw [match_matchedKeywords, score_matchedKeywords]
      simp [hfalse]
    refine ⟨hmk, ?_⟩
    have hms : (score [] [] rt jdt).matchScore = 0 := by
      rw [score_matchScore]
      have h1 : skillOverlapCount [] (extract jdt).skills = 0 := by
        simp [skillOverlapCount]
      have h2 : ((extract jdt).keywords.filter (resumeHas [] [])).length = 0 := by
        simp [hfalse]
      rw [h1, h2]
      simp [overlapFrac_zero]
    rw [match_eq_score_pct, score_matchPercentage, hms]
    norm_num

/-- Witness for C7 at an empty job description and an empty resume side. -/
theorem degenerate_inputs_zero_witness :
    (matchResumeToJD [] [] "some resume" "").matchPercentage = 0 ∧
      (matchResumeToJD [] [] "some resume" "").status = MatchStatus.rejected ∧
      (matchResumeToJD [] [] "some resume" "").matchedKeywords = [] :=
  (degenerate_inputs_zero [] [] "some resume" "").1 (by decide)

/-- C8: adding a job-required skill to the resume's skill set, holding the
resume keywords, resume text and job description fixed, never decreases the
match percentage. -/
theorem adding_job_skill_monotone (rk rs : List String) (rt jdt s : String)
    (hs : s ∈ (extract jdt).skills) :
    (matchResumeToJD rk rs rt jdt).matchPercentage ≤
      (matchResumeToJD rk (s :: rs) rt jdt).matchPercentage := by
  have ha : skillOverlapCount rs (extract jdt).skills ≤
      skillOverlapCount (s :: rs) (extract jdt).skills := by
    unfold skillOverlapCount
    refine List.Sublist.length_le (List.monotone_filter_right _ fun a h => ?_)
    simp only [List.contains_cons]
    simp
    exact Or.inr (by simpa using h)
  have hb : ((extract jdt).keywords.filter (resumeHas rk rs)).length ≤
      ((extract jdt).keywords.filter (resumeHas rk (s :: rs))).length := by
    refine List.Sublist.length_le (List.monotone_filter_right _ fun a h => ?_)
    simp only [resumeHas, List.contains_cons] at h ⊢
    simp only [Bool.or_eq_true] at h ⊢
    rcases h with h1 | h1
    · exact Or.inl h1
    · exact Or.inr (Or.inr h1)
  have hms : (score rk rs rt jdt).matchScore ≤ (score rk (s :: rs) rt jdt).matchScore := by
    rw [score_matchScore, score_matchScore]
    have hw1 : (0 : ℚ) ≤ W_SKILL := by norm_num [W_SKILL]
    have hw2 : (0 : ℚ) ≤ W_KEYWORD := by norm_num [W_KEYWORD]
    exact add_le_add
      (mul_le_mul_of_nonneg_left (overlapFrac_mono _ ha) hw1)
      (mul_le_mul_of_nonneg_left (overlapFrac_mono _ hb) hw2)
  have hr : round ((score rk rs rt jdt).matchScore * 100) ≤
      round ((score rk (s :: rs) rt jdt).matchScore * 100) :=
    round_rat_mono (by nlinarith)
  rw [match_eq_score_pct, match_eq_score_pct, score_matchPercentage, score_matchPercentage]
  exact min_le_min (le_refl _) (max_le_max (le_refl _) hr)

/-- Witness for C8: adding the job-required skill `docker` to an empty
resume skill set does not decrease the percentage. -/
theorem adding_job_skill_monotone_witness :
    (matchResumeToJD [] [] "r"
        "Looking for Python developer with AWS and Docker skills").matchPercentage ≤
      (matchResumeToJD [] ["docker"] "r"
        "Looking for Python developer with AWS and Docker skills").matchPercentage :=
  adding_job_skill_monotone [] [] "r"
    "Looking for Python developer with AWS and Docker skills" "docker" (by decide)

/-! ## Zone lemmas for the segmenter -/

/-- The body lines the accumulator holds for a given zone. -/
def zoneBody (z : ZoneTag) (acc : ZoneAcc) : List String :=
  match z with
  | .noZone => []
  | .experienceZone => acc.experienceLines
  | .educationZone => acc.educationLines
  | .certificatesZone => acc.certificateLines

theorem zoneStep_preserves (z : ZoneTag) (acc : ZoneAcc) (line : String)
    (hl : headingTag line ≠ some z) (hc : acc.current ≠ z) :
    zoneBody z (zoneStep acc line) = zoneBody z acc ∧ (zoneStep acc line).current ≠ z := by
  obtain ⟨cur, e, ed, c⟩ := acc
  cases hh : headingTag line with
  | some z1 =>
      refine ⟨?_, ?_⟩
      · simp only [zoneStep, hh]
        cases z <;> rfl
      · simp only [zoneStep, hh]
        intro h
        exact hl (by rw [hh, h])
  | none =>
      simp only [zoneStep, hh]
      simp only [ZoneTag] at hc ⊢
      cases cur <;> cases z <;> simp_all [zoneBody]

theorem foldl_zone_preserves (z : ZoneTag) (lines : List String) (acc : ZoneAcc)
    (h : ∀ l ∈ lines, headingTag l ≠ some z) (hc : acc.current ≠ z) :
    zoneBody z (lines.foldl zoneStep acc) = zoneBody z acc ∧
      (lines.foldl zoneStep acc).current ≠ z := by
  induction lines generalizing acc with
  | nil => exact ⟨rfl, hc⟩
  | cons l ls ih =>
      have h1 := zoneStep_preserves z acc l (h l (List.mem_cons_self l ls)) hc
      have h2 := ih (zoneStep acc l) (fun x hx => h x (List.mem_cons_of_mem l hx)) h1.2
      exact ⟨h2.1.trans h1.1, h2.2⟩

/-- C6: the parsing stages are total and degrade gracefully — the extractor
returns empty skill and keyword sets on empty text; when the text contains no
heading of a section category that category's sequence is empty (not an
error), and absent emails yield the empty string; and the single-match route,
once its length validation passes, always answers with the computed match
result, with no error path through `parseResume` or `matchResumeToJD`. -/
theorem parsing_never_fails :
    extract "" = { skills := [], keywords := [] } ∧
    (∀ text, (∀ l ∈ splitStr (fun c => c = '\n') text,
        headingTag l ≠ some .experienceZone) → (segment text).experience = []) ∧
    (∀ text, (∀ l ∈ splitStr (fun c => c = '\n') text,
        headingTag l ≠ some .educationZone) → (segment text).education = []) ∧
    (∀ text, (∀ l ∈ splitStr (fun c => c = '\n') text,
        headingTag l ≠ some .certificatesZone) → (segment text).certificates = []) ∧
    (∀ text, (∀ t ∈ splitStr isWsChar text, ¬isEmailToken t) →
        (segment text).email = "") ∧
    (∀ r j, 10 ≤ r.length → 10 ≤ j.length →
        singleMatchRoute r j = .ok (singleMatchResponse r j)) := by
  refine ⟨by decide, fun text h => ?_, fun text h => ?_, fun text h => ?_,
    fun text h => ?_, fun r j hr hj => ?_⟩
  · have hp := foldl_zone_preserves .experienceZone (splitStr (fun c => c = '\n') text)
      ⟨.noZone, [], [], []⟩ h (by simp)
    show (blocks (splitZones text).experienceLines).map mkExperienceEntry = []
    have he : (splitZones text).experienceLines = ([] : List String) := hp.1
    rw [he]
    rfl
  · have hp := foldl_zone_preserves .educationZone (splitStr (fun c => c = '\n') text)
      ⟨.noZone, [], [], []⟩ h (by simp)
    show (blocks (splitZones text).educationLines).map mkEducationEntry = []
    have he : (splitZones text).educationLines = ([] : List String) := hp.1
    rw [he]
    rfl
  · have hp := foldl_zone_preserves .certificatesZone (splitStr (fun c => c = '\n') text)
      ⟨.noZone, [], [], []⟩ h (by simp)
    show ((splitZones text).certificateLines.map trimStr).filter (fun l => l ≠ "") = []
    have he : (splitZones text).certificateLines = ([] : List String) := hp.1
    rw [he]
    rfl
  · show (((splitStr isWsChar text).find? isEmailToken).getD "") = ""
    rw [List.find?_eq_none.mpr (by simpa using h)]
    rfl
  · simp [singleMatchRoute, Nat.not_lt.mpr hr, Nat.not_lt.mpr hj]

/-- Witness for C6 on a concrete heading-free text and a concrete valid
request. -/
theorem parsing_never_fails_witness :
    (segment "python developer resume").education = [] :=
  parsing_never_fails.2.2.1 "python developer resume" (by decide)

/-- C4: both match endpoints enforce the 10-character minimum before any
parsing or matching — a too-short resume text or job description makes the
single-match route answer an invalid-input error, valid lengths make it
proceed to parse and match, and the bulk route rejects a too-short job
description the same way. -/
theorem min_length_validation :
    (∀ r j, r.length < 10 ∨ j.length < 10 →
        singleMatchRoute r j = .invalidInput "Invalid input") ∧
    (∀ r j, 10 ≤ r.length → 10 ≤ j.length →
        singleMatchRoute r j = .ok (singleMatchResponse r j)) ∧
    (∀ j jid files, files ≠ [] → j.length < 10 →
        bulkRoute j jid files = .invalidInput "Invalid input") := by
  refine ⟨fun r j h => ?_, fun r j hr hj => ?_, fun j jid files hf hj => ?_⟩
  · rcases h with h | h <;> simp [singleMatchRoute, h]
  · simp [singleMatchRoute, Nat.not_lt.mpr hr, Nat.not_lt.mpr hj]
  · have h1 : files.isEmpty = false := by
      simpa [List.isEmpty_iff] using hf
    simp [bulkRoute, h1, hj]

/-- Witness for C4: a 5-character resume text is rejected. -/
theorem min_length_validation_witness :
    singleMatchRoute "short" "a job description that is long enough" =
      SingleMatchResult.invalidInput "Invalid input" :=
  min_length_validation.1 "short" "a job description that is long enough"
    (Or.inl (by decide))

/-- C5: the bulk endpoint processes every uploaded file and reports exactly
one entry per file; a file whose text extraction fails, or whose database
step throws, yields a per-item error entry carrying the file name and the
message while the remaining files are still processed. -/
theorem bulk_per_item_errors :
    (∀ j jid files, files ≠ [] → 10 ≤ j.length → 1 ≤ jid.length →
        bulkRoute j jid files = .ok files.length (files.map (processBulkFile j))) ∧
    (∀ j f msg, f.readResult = .error msg →
        (processBulkFile j f).entry = .itemError f.originalname msg) ∧
    (∀ j f text msg, f.readResult = .ok text → f.dbFailure = some msg →
        (processBulkFile j f).entry = .itemError f.originalname msg) := by
  refine ⟨fun j jid files hf hj hid => ?_, fun j f msg h => ?_,
    fun j f text msg h1 h2 => ?_⟩
  · have h1 : files.isEmpty = false := by
      simpa [List.isEmpty_iff] using hf
    have h2 : ¬j.length < 10 := Nat.not_lt.mpr hj
    have h3 : ¬jid.length < 1 := Nat.not_lt.mpr hid
    simp [bulkRoute, h1, h2, h3]
  · simp [processBulkFile, h]
  · simp [processBulkFile, h1, h2]

/-- Witness for C5: a file whose extraction failed produces an error entry. -/
theorem bulk_per_item_errors_witness :
    (processBulkFile "a long enough job description"
        { originalname := "cv.pdf", readResult := .error "Could not extract text",
          dbFailure := none, linkedApplication := none,
          appUpdateFails := false }).entry =
      ItemEntry.itemError "cv.pdf" "Could not extract text" :=
  bulk_per_item_errors.2.1 "a long enough job description"
    { originalname := "cv.pdf", readResult := .error "Could not extract text",
      dbFailure := none, linkedApplication := none, appUpdateFails := false }
    "Could not extract text" rfl

/-- C9: in the bulk, use-stored-resumes and manual status-patch routes, a
resume ending shortlisted sets the linked application's status to interview,
a rejected one sets it to rejected, and a low-priority one leaves it
unchanged; a failing application update never changes the resume-side outcome
of the operation. -/
theorem application_status_sync :
    (∀ cur, updatedApplicationStatus .shortlisted cur = .interview) ∧
    (∀ cur, updatedApplicationStatus .rejected cur = .rejected) ∧
    (∀ cur, updatedApplicationStatus .low_priority cur = cur) ∧
    (∀ j f text cur, f.readResult = .ok text → f.dbFailure = none →
        f.linkedApplication = some cur → f.appUpdateFails = false →
        (processBulkFile j f).applicationAfter = some (updatedApplicationStatus
          (matchResumeToJD (parseResume text).keywords (parseResume text).skills
            text j).status cur)) ∧
    (∀ j f b, (processBulkFile j { f with appUpdateFails := b }).entry =
          (processBulkFile j f).entry ∧
        (processBulkFile j { f with appUpdateFails := b }).saved =
          (processBulkFile j f).saved) ∧
    (∀ j it cur, it.saveFailure = none → it.linkedApplication = some cur →
        it.appUpdateFails = false →
        (processStoredResume j it).applicationAfter = some (updatedApplicationStatus
          (matchResumeToJD it.resume.keywords it.resume.skills
            it.resume.originalText j).status cur)) ∧
    (∀ j it b, (processStoredResume j { it with appUpdateFails := b }).entry =
          (processStoredResume j it).entry ∧
        (processStoredResume j { it with appUpdateFails := b }).saved =
          (processStoredResume j it).saved) ∧
    (∀ s st r app b, statusFromString s = some st →
        patchResumeStatusRoute s (some r) (some app) b =
          .ok { r with status := st }
            (some (if b then app else updatedApplicationStatus st app))) := by
  refine ⟨fun cur => rfl, fun cur => rfl, fun cur => rfl,
    fun j f text cur h1 h2 h3 h4 => ?_, fun j f b => ?_,
    fun j it cur h1 h2 h3 => ?_, fun j it b => ?_,
    fun s st r app b h => ?_⟩
  · simp [processBulkFile, h1, h2, h3, h4]
  · cases hr : f.readResult <;> cases hd : f.dbFailure <;>
      simp [processBulkFile, hr, hd]
  · simp [processStoredResume, h1, h2, h3]
  · cases hsf : it.saveFailure <;> simp [processStoredResume, hsf]
  · simp [patchResumeStatusRoute, h]

/-- Witness for C9: a manual patch to shortlisted moves the linked
application to interview. -/
theorem application_status_sync_witness :
    patchResumeStatusRoute "shortlisted"
        (some { fileName := "cv.pdf", originalText := "text", skills := [],
                keywords := [], email := "", matchScore := 0,
                matchPercentage := 0, status := .rejected,
                matchedKeywords := [], missingKeywords := [] })
        (some .applied) false =
      PatchResponse.ok
        { fileName := "cv.pdf", originalText := "text", skills := [],
          keywords := [], email := "", matchScore := 0, matchPercentage := 0,
          status := .shortlisted, matchedKeywords := [], missingKeywords := [] }
        (some ApplicationStatus.interview) :=
  application_status_sync.2.2.2.2.2.2.2 "shortlisted" .shortlisted
    { fileName := "cv.pdf", originalText := "text", skills := [], keywords := [],
      email := "", matchScore := 0, matchPercentage := 0, status := .rejected,
      matchedKeywords := [], missingKeywords := [] }
    .applied false rfl

/-- C10: the per-item results of the bulk and use-stored-resumes endpoints
carry only the first 10 matched and missing keywords — an order-preserving
prefix of the full lists — while the persisted resume document and the
single-match endpoint keep the full untruncated lists. -/
theorem keyword_lists_truncation :
    (∀ j f text, f.readResult = .ok text → f.dbFailure = none →
        (processBulkFile j f).entry = .ok f.originalname
            (matchResumeToJD (parseResume text).keywords (parseResume text).skills
              text j).matchPercentage
            (matchResumeToJD (parseResume text).keywords (parseResume text).skills
              text j).status
            (parseResume text).email (parseResume text).skills
            ((matchResumeToJD (parseResume text).keywords (parseResume text).skills
              text j).matchedKeywords.take 10)
            ((matchResumeToJD (parseResume text).keywords (parseResume text).skills
              text j).missingKeywords.take 10) ∧
          (processBulkFile j f).saved = some (bulkSavedResume j f.originalname text) ∧
          (bulkSavedResume j f.originalname text).matchedKeywords =
            (matchResumeToJD (parseResume text).keywords (parseResume text).skills
              text j).matchedKeywords ∧
          (bulkSavedResume j f.originalname text).missingKeywords =
            (matchResumeToJD (parseResume text).keywords (parseResume text).skills
              text j).missingKeywords) ∧
    (∀ j it, it.saveFailure = none →
        (processStoredResume j it).entry = .ok it.resume.fileName
            (matchResumeToJD it.resume.keywords it.resume.skills
              it.resume.originalText j).matchPercentage
            (matchResumeToJD it.resume.keywords it.resume.skills
              it.resume.originalText j).status
            it.resume.email it.resume.skills
            ((matchResumeToJD it.resume.keywords it.resume.skills
              it.resume.originalText j).matchedKeywords.take 10)
            ((matchResumeToJD it.resume.keywords it.resume.skills
              it.resume.originalText j).missingKeywords.take 10) ∧
          (processStoredResume j it).saved = some { it.resume with
            matchScore := (matchResumeToJD it.resume.keywords it.resume.skills
              it.resume.originalText j).matchScore,
            matchPercentage := (matchResumeToJD it.resume.keywords it.resume.skills
              it.resume.originalText j).matchPercentage,
            status := (matchResumeToJD it.resume.keywords it.resume.skills
              it.resume.originalText j).status,
            matchedKeywords := (matchResumeToJD it.resume.keywords it.resume.skills
              it.resume.originalText j).matchedKeywords,
            missingKeywords := (matchResumeToJD it.resume.keywords it.resume.skills
              it.resume.originalText j).missingKeywords }) ∧
    (∀ m : MatchResult, m.matchedKeywords.take 10 <+: m.matchedKeywords ∧
        (m.matchedKeywords.take 10).length ≤ 10 ∧
        m.missingKeywords.take 10 <+: m.missingKeywords ∧
        (m.missingKeywords.take 10).length ≤ 10) ∧
    (∀ r j, (singleMatchResponse r j).matchedKeywords =
          (matchResumeToJD (parseResume r).keywords (parseResume r).skills
            r j).matchedKeywords ∧
        (singleMatchResponse r j).missingKeywords =
          (matchResumeToJD (parseResume r).keywords (parseResume r).skills
            r j).missingKeywords) := by
  refine ⟨fun j f text h1 h2 => ?_, fun j it h => ?_, fun m => ?_, fun r j => ⟨rfl, rfl⟩⟩
  · simp [processBulkFile, h1, h2, bulkSavedResume]
  · simp [processStoredResume, h]
  · exact ⟨List.take_prefix 10 _, List.length_take_le 10 _,
      List.take_prefix 10 _, List.length_take_le 10 _⟩

/-- Witness for C10: a concrete bulk item persists the full keyword lists
while its response entry is truncated. -/
theorem keyword_lists_truncation_witness :
    (processBulkFile "Looking for Python developer with AWS and Docker skills"
        { originalname := "cv.txt",
          readResult := .ok "resume of a python developer with aws experience",
          dbFailure := none, linkedApplication := none,
          appUpdateFails := false }).saved =
      some (bulkSavedResume "Looking for Python developer with AWS and Docker skills"
        "cv.txt" "resume of a python developer with aws experience") :=
  (keyword_lists_truncation.1 "Looking for Python developer with AWS and Docker skills"
    { originalname := "cv.txt",
      readResult := .ok "resume of a python developer with aws experience",
      dbFailure := none, linkedApplication := none, appUpdateFails := false }
    "resume of a python developer with aws experience" rfl rfl).2.1

end ATS
